import Mathlib

attribute [local semireducible] Rat.ofScientific Rat.mul Rat.inv Rat.add Rat.sub

/-!
Verification of the battery chemistry / cell-count detection and
voltage-to-percentage estimation engine of the go-config repository
(`battery.go`).  Floating-point values (`float32` in the source) are
embedded as exact rationals; Go `int` is embedded as `Int`.
-/

/-- Embeds `BatteryType` (battery.go): single-cell chemistry characteristics. -/
structure BatteryType where
  chemistry : String
  minVoltage : ℚ
  maxVoltage : ℚ
  voltages : List ℚ
  percent : List ℚ
deriving DecidableEq

/-- Embeds `BatteryPack` (battery.go): a chemistry (possibly nil) plus cell count. -/
structure BatteryPack where
  type : Option BatteryType
  cellCount : ℤ
deriving DecidableEq

/-- Embeds `LiFePO4Chemistry` (battery.go). -/
def LiFePO4Chemistry : BatteryType :=
  { chemistry := "lifepo4"
    minVoltage := 2.5
    maxVoltage := 3.65
    voltages := [2.5, 3.0, 3.2, 3.22, 3.25, 3.25, 3.26, 3.3, 3.32, 3.35, 3.6]
    percent := [0, 10, 20, 30, 40, 50, 60, 70, 80, 90, 100] }

/-- Embeds `LiIonChemistry` (battery.go). -/
def LiIonChemistry : BatteryType :=
  { chemistry := "li-ion"
    minVoltage := 3.0
    maxVoltage := 4.2
    voltages := [3.4, 3.46, 3.51, 3.56, 3.58, 3.61, 3.62, 3.64, 3.67, 3.71,
                 3.76, 3.81, 3.86, 3.90, 3.93, 3.97, 4.00, 4.04, 4.07, 4.11, 4.17]
    percent := [0, 5, 10, 15, 20, 25, 30, 35, 40, 45, 50, 55, 60, 65, 70, 75,
                80, 85, 90, 95, 100] }

/-- Embeds `LeadAcidChemistry` (battery.go). -/
def LeadAcidChemistry : BatteryType :=
  { chemistry := "lead-acid"
    minVoltage := 1.8
    maxVoltage := 2.4
    voltages := [1.93, 1.94, 1.96, 1.98, 2.00, 2.01, 2.03, 2.05, 2.07, 2.09, 2.11]
    percent := [0, 10, 20, 30, 40, 50, 60, 70, 80, 90, 100] }

/-- Embeds `LiPoChemistry` (battery.go). -/
def LiPoChemistry : BatteryType :=
  { chemistry := "lipo"
    minVoltage := 3.0
    maxVoltage := 4.2
    voltages := [3.4, 3.46, 3.51, 3.56, 3.58, 3.61, 3.62, 3.64, 3.67, 3.71,
                 3.76, 3.81, 3.86, 3.90, 3.93, 3.97, 4.00, 4.04, 4.07, 4.11, 4.17]
    percent := [0, 5, 10, 15, 20, 25, 30, 35, 40, 45, 50, 55, 60, 65, 70, 75,
                80, 85, 90, 95, 100] }

/-- Embeds the `ChemistryProfiles` map (battery.go) as a name-indexed lookup. -/
def ChemistryProfiles (name : String) : Option BatteryType :=
  if name = "lifepo4" then some LiFePO4Chemistry
  else if name = "li-ion" then some LiIonChemistry
  else if name = "lead-acid" then some LeadAcidChemistry
  else if name = "lipo" then some LiPoChemistry
  else none

/-- Go's `int(x)` conversion on a float: truncation toward zero. -/
def truncInt (q : ℚ) : ℤ := if q < 0 then ⌈q⌉ else ⌊q⌋

/-- Embeds `BatteryPack.DetectCellCount` (battery.go): estimate the cell count
from a voltage using the nominal (midpoint) per-cell voltage, clamped to [1,24]. -/
def BatteryPack.DetectCellCount (bp : BatteryPack) (voltage : ℚ) : ℤ :=
  match bp.type with
  | none => 0
  | some t =>
    let nominalVoltage := (t.minVoltage + t.maxVoltage) / 2
    let estimatedCells := truncInt (voltage / nominalVoltage + 0.5)
    if estimatedCells < 1 then 1
    else if estimatedCells > 24 then 24
    else estimatedCells

example : BatteryPack.DetectCellCount ⟨some LiFePO4Chemistry, 0⟩ 13 = 4 := by decide
example : BatteryPack.DetectCellCount ⟨some LiFePO4Chemistry, 0⟩ 100 = 24 := by decide
example : BatteryPack.DetectCellCount ⟨some LiFePO4Chemistry, 0⟩ 0.5 = 1 := by decide
example : BatteryPack.DetectCellCount ⟨some LiIonChemistry, 0⟩ 27.75 = 8 := by decide
example : BatteryPack.DetectCellCount ⟨some LeadAcidChemistry, 0⟩ 11.55 = 6 := by decide

/-- Embeds `GetScaledMinVoltage` (battery.go). -/
def BatteryPack.GetScaledMinVoltage (bp : BatteryPack) : ℚ :=
  match bp.type with
  | none => 0
  | some t => if bp.cellCount ≤ 0 then 0 else t.minVoltage * bp.cellCount

/-- Embeds `GetScaledMaxVoltage` (battery.go). -/
def BatteryPack.GetScaledMaxVoltage (bp : BatteryPack) : ℚ :=
  match bp.type with
  | none => 0
  | some t => if bp.cellCount ≤ 0 then 0 else t.maxVoltage * bp.cellCount

/-- One fuelled unrolling of the binary search loop of `VoltageToPercent`
(battery.go): `for left < right-1 { mid := (left+right)/2; if cellVoltage <
voltages[mid] { right = mid } else { left = mid } }`.  The fuel only bounds
the iteration count; `right - left` shrinks every iteration, so any fuel
of at least `right - left` computes the loop's exit state. -/
def bsearchAux (voltages : List ℚ) (cellVoltage : ℚ) : ℕ → ℕ → ℕ → ℕ × ℕ
  | 0, left, right => (left, right)
  | fuel + 1, left, right =>
    if left + 1 < right then
      if cellVoltage < voltages.getD ((left + right) / 2) 0 then
        bsearchAux voltages cellVoltage fuel left ((left + right) / 2)
      else
        bsearchAux voltages cellVoltage fuel ((left + right) / 2) right
    else
      (left, right)

/-- The binary search of `VoltageToPercent` (battery.go), run with enough fuel
to reach the loop's exit state. -/
def bsearch (voltages : List ℚ) (cellVoltage : ℚ) (left right : ℕ) : ℕ × ℕ :=
  bsearchAux voltages cellVoltage (right - left) left right

/-- The final defensive clamp of `VoltageToPercent` (battery.go):
`if percent < 0 { percent = 0 } else if percent > 100 { percent = 100 }`. -/
def clampPercent (percent : ℚ) : ℚ :=
  if percent < 0 then 0 else if percent > 100 then 100 else percent

/-- The non-error tail of `VoltageToPercent` (battery.go): boundary handling,
binary search and linear interpolation over the single-cell curve. -/
def interpolate (voltages percents : List ℚ) (cellVoltage : ℚ) : ℚ :=
  if cellVoltage ≤ voltages.getD 0 0 then
    percents.getD 0 0
  else if voltages.getD (voltages.length - 1) 0 ≤ cellVoltage then
    percents.getD (percents.length - 1) 0
  else
    let lr := bsearch voltages cellVoltage 0 (voltages.length - 1)
    let v1 := voltages.getD lr.1 0
    let v2 := voltages.getD lr.2 0
    let p1 := percents.getD lr.1 0
    let p2 := percents.getD lr.2 0
    if v2 = v1 then p1
    else clampPercent (p1 + (p2 - p1) * (cellVoltage - v1) / (v2 - v1))

instance {ε α : Type} [DecidableEq ε] [DecidableEq α] : DecidableEq (Except ε α) := fun a b =>
  match a, b with
  | .error x, .error y => decidable_of_iff (x = y) (by simp)
  | .error _, .ok _ => isFalse (by simp)
  | .ok _, .error _ => isFalse (by simp)
  | .ok x, .ok y => decidable_of_iff (x = y) (by simp)

/-- Embeds `BatteryPack.VoltageToPercent` (battery.go). -/
def BatteryPack.VoltageToPercent (bp : BatteryPack) (voltage : ℚ) : Except String ℚ :=
  match bp.type with
  | none => .error "no battery type defined"
  | some t =>
    if bp.cellCount ≤ 0 then
      .error ("invalid cell count: " ++ toString bp.cellCount)
    else if t.voltages.length ≠ t.percent.length ∨ t.voltages.length = 0 then
      .error ("invalid voltage/percent curves for " ++ t.chemistry)
    else
      .ok (interpolate t.voltages t.percent (voltage / (bp.cellCount : ℚ)))

example : BatteryPack.VoltageToPercent ⟨some LiFePO4Chemistry, 4⟩ 10 = .ok 0 := by decide
example : BatteryPack.VoltageToPercent ⟨some LiFePO4Chemistry, 4⟩ 14.6 = .ok 100 := by decide
example : BatteryPack.VoltageToPercent ⟨some LiFePO4Chemistry, 4⟩ 9 = .ok 0 := by decide
example : BatteryPack.VoltageToPercent ⟨some LiFePO4Chemistry, 4⟩ 15 = .ok 100 := by decide
example : BatteryPack.VoltageToPercent ⟨some LiFePO4Chemistry, 4⟩ 13 = .ok 50 := by decide
example : BatteryPack.VoltageToPercent ⟨some LiFePO4Chemistry, 0⟩ 13 =
    .error "invalid cell count: 0" := by decide

/-- Embeds the `Battery` configuration record (battery.go); the deprecated
migration-only fields are outside the verified core. -/
structure Battery where
  enableVoltageReadings : Bool
  chemistry : String
  manualCellCount : ℤ
  manuallyConfigured : Bool
  minimumVoltageDetection : ℚ
  enableDepletionEstimate : Bool
  depletionHistoryHours : ℤ
  depletionWarningHours : ℚ
deriving DecidableEq

/-- Embeds `DefaultBattery` (battery.go). -/
def DefaultBattery : Battery :=
  { enableVoltageReadings := true
    chemistry := ""
    manualCellCount := 0
    manuallyConfigured := false
    minimumVoltageDetection := 1.0
    enableDepletionEstimate := true
    depletionHistoryHours := 48
    depletionWarningHours := 12.0 }

/-- Embeds `Battery.DetectCellCount` (battery.go): resolve the chemistry and
delegate to the pack-level detector; unknown chemistry yields the sentinel 0. -/
def Battery.DetectCellCount (_b : Battery) (chemistry : String) (voltage : ℚ) : ℤ :=
  match ChemistryProfiles chemistry with
  | none => 0
  | some t => BatteryPack.DetectCellCount ⟨some t, 0⟩ voltage

/-- Embeds `Battery.GetBatteryPack` (battery.go): build a pack from the
configured chemistry; cell count comes from the manual setting when positive,
else from voltage detection when the voltage is positive, else stays 0. -/
def Battery.GetBatteryPack (b : Battery) (voltage : ℚ) : Except String BatteryPack :=
  if b.chemistry = "" then
    .error "no battery chemistry specified"
  else
    match ChemistryProfiles b.chemistry with
    | none => .error ("unknown battery chemistry: " ++ b.chemistry)
    | some t =>
      if b.manualCellCount > 0 then
        .ok ⟨some t, b.manualCellCount⟩
      else if voltage > 0 then
        .ok ⟨some t, BatteryPack.DetectCellCount ⟨some t, 0⟩ voltage⟩
      else
        .ok ⟨some t, 0⟩

/-- Embeds `Battery.SetManualConfiguration` (battery.go) as a state
transformer: returns the updated record and the error, if any.  The source
mutates the receiver's `Chemistry` field before validating the cell count. -/
def Battery.SetManualConfiguration (b : Battery) (chemistry : String) (cellCount : ℤ) :
    Battery × Option String :=
  if chemistry ≠ "" ∧ ChemistryProfiles chemistry = none then
    (b, some ("unknown battery chemistry: " ++ chemistry))
  else
    let b1 := if chemistry ≠ "" then { b with chemistry := chemistry } else b
    if cellCount > 0 ∧ (cellCount < 1 ∨ cellCount > 24) then
      (b1, some ("cell count must be between 1 and 24, got " ++ toString cellCount))
    else
      let b2 := if cellCount > 0 then { b1 with manualCellCount := cellCount } else b1
      ({ b2 with manuallyConfigured := true }, none)

example : (DefaultBattery.SetManualConfiguration "lipo" 25).2.isSome := by decide
example : (DefaultBattery.SetManualConfiguration "lipo" 25).1.chemistry = "lipo" := by decide
example : DefaultBattery.GetBatteryPack 13 = .error "no battery chemistry specified" := by decide

/-- Modelled from the spec: the `AutoDetectBatteryPack` implementation is not
among the available source files (only its tests, `battery_autodetect_test.go`,
are), so its authoritative priority table is reconstructed from §4.3 of the
spec — a hand-curated, priority-ordered list of (chemistry, cellCount) pairs
for the physically common configurations — ordered to realise the documented
tie-breaks and the expectations of the test table. -/
def autoDetectTable : List (String × ℤ) :=
  [("lead-acid", 1), ("lifepo4", 1), ("li-ion", 1),
   ("lifepo4", 2), ("li-ion", 2),
   ("li-ion", 3), ("lifepo4", 3),
   ("li-ion", 4), ("lifepo4", 4),
   ("li-ion", 5), ("li-ion", 6),
   ("li-ion", 8), ("li-ion", 7),
   ("li-ion", 10), ("li-ion", 9)]

/-- Modelled from the spec: whether a (chemistry, cellCount) table entry's
scaled voltage window `[minVoltage*cellCount, maxVoltage*cellCount]` contains
the input voltage (§4.3, table phase and fallback phase). -/
def entryMatches (voltage : ℚ) (entry : String × ℤ) : Bool :=
  match ChemistryProfiles entry.1 with
  | none => false
  | some t => decide (t.minVoltage * entry.2 ≤ voltage) && decide (voltage ≤ t.maxVoltage * entry.2)

/-- Modelled from the spec: the fallback enumeration of §4.3 — every
registered chemistry × cell count in [1,10], ordered by ascending cell count
so that the first match is one with the lowest cell count. -/
def fallbackCandidates : List (String × ℤ) :=
  (List.range 10).flatMap fun k =>
    [("lead-acid", (k : ℤ) + 1), ("lifepo4", (k : ℤ) + 1),
     ("li-ion", (k : ℤ) + 1), ("lipo", (k : ℤ) + 1)]

/-- Modelled from the spec: `AutoDetectBatteryPack` (§4.3, §6) — reject a
non-positive voltage, then take the first matching entry of the authoritative
table, then the lowest-cell-count fallback match, else fail. -/
def AutoDetectBatteryPack (voltage : ℚ) : Except String BatteryPack :=
  if voltage ≤ 0 then
    .error "voltage must be positive to detect battery pack"
  else
    match autoDetectTable.find? (entryMatches voltage) with
    | some entry => .ok ⟨ChemistryProfiles entry.1, entry.2⟩
    | none =>
      match fallbackCandidates.find? (entryMatches voltage) with
      | some entry => .ok ⟨ChemistryProfiles entry.1, entry.2⟩
      | none => .error "could not detect battery pack from voltage"

example : AutoDetectBatteryPack 3.86 = .ok ⟨some LiIonChemistry, 1⟩ := by decide
example : AutoDetectBatteryPack 6.6 = .ok ⟨some LiFePO4Chemistry, 2⟩ := by decide
example : AutoDetectBatteryPack 2.1 = .ok ⟨some LeadAcidChemistry, 1⟩ := by decide
example : AutoDetectBatteryPack 2.6 = .ok ⟨some LiFePO4Chemistry, 1⟩ := by decide
example : AutoDetectBatteryPack 4.0 = .ok ⟨some LiIonChemistry, 1⟩ := by decide
example : AutoDetectBatteryPack 6.5 = .ok ⟨some LiFePO4Chemistry, 2⟩ := by decide
example : AutoDetectBatteryPack 7.8 = .ok ⟨some LiIonChemistry, 2⟩ := by decide
example : AutoDetectBatteryPack 8.6 = .ok ⟨some LiFePO4Chemistry, 3⟩ := by decide
example : AutoDetectBatteryPack 10.5 = .ok ⟨some LiIonChemistry, 3⟩ := by decide
example : AutoDetectBatteryPack 12.0 = .ok ⟨some LiIonChemistry, 3⟩ := by decide
example : AutoDetectBatteryPack 13.5 = .ok ⟨some LiIonChemistry, 4⟩ := by decide
example : AutoDetectBatteryPack 17.2 = .ok ⟨some LiIonChemistry, 5⟩ := by decide
example : AutoDetectBatteryPack 21.0 = .ok ⟨some LiIonChemistry, 5⟩ := by decide
example : AutoDetectBatteryPack 27.0 = .ok ⟨some LiIonChemistry, 8⟩ := by decide
example : AutoDetectBatteryPack 35.0 = .ok ⟨some LiIonChemistry, 10⟩ := by decide
example : (AutoDetectBatteryPack 0).isOk = false := by decide
example : (AutoDetectBatteryPack (-5)).isOk = false := by decide
example : (AutoDetectBatteryPack 1.5).isOk = false := by decide

/-! ### General lemmas about the embedded operations -/

theorem getD_eq_getElem_of_lt (l : List ℚ) (i : ℕ) (h : i < l.length) :
    l.getD i 0 = l[i] := by
  simp [List.getD_eq_getElem?_getD, List.getElem?_eq_getElem h]

theorem getD_mem_of_lt (l : List ℚ) (i : ℕ) (h : i < l.length) : l.getD i 0 ∈ l := by
  rw [getD_eq_getElem_of_lt l i h]
  exact List.getElem_mem h

theorem getD_mono_of_chain {l : List ℚ} (h : l.Chain' (· ≤ ·)) {i j : ℕ}
    (hij : i ≤ j) (hj : j < l.length) : l.getD i 0 ≤ l.getD j 0 := by
  have hi : i < l.length := lt_of_le_of_lt hij hj
  rw [getD_eq_getElem_of_lt l i hi, getD_eq_getElem_of_lt l j hj]
  rcases eq_or_lt_of_le hij with rfl | hlt
  · exact le_refl _
  · exact List.pairwise_iff_getElem.mp (List.chain'_iff_pairwise.mp h) i j hi hj hlt

/-- The loop invariant of the binary search: starting from a window whose left
voltage is at most the cell voltage and whose right voltage is strictly above
it, the search exits on an adjacent pair bracketing the cell voltage. -/
theorem bsearchAux_spec (vs : List ℚ) (cv : ℚ) :
    ∀ fuel left right : ℕ, right - left ≤ fuel → left < right →
      vs.getD left 0 ≤ cv → cv < vs.getD right 0 →
      left ≤ (bsearchAux vs cv fuel left right).1 ∧
      (bsearchAux vs cv fuel left right).2 = (bsearchAux vs cv fuel left right).1 + 1 ∧
      (bsearchAux vs cv fuel left right).2 ≤ right ∧
      vs.getD (bsearchAux vs cv fuel left right).1 0 ≤ cv ∧
      cv < vs.getD (bsearchAux vs cv fuel left right).2 0 := by
  intro fuel
  induction fuel with
  | zero => intro l r h1 h2 _ _; omega
  | succ fuel ih =>
    intro l r h1 h2 h3 h4
    simp only [bsearchAux]
    by_cases hlr : l + 1 < r
    · rw [if_pos hlr]
      by_cases hcv : cv < vs.getD ((l + r) / 2) 0
      · rw [if_pos hcv]
        obtain ⟨a1, a2, a3, a4, a5⟩ := ih l ((l + r) / 2) (by omega) (by omega) h3 hcv
        exact ⟨a1, a2, le_trans a3 (by omega), a4, a5⟩
      · rw [if_neg hcv]
        obtain ⟨a1, a2, a3, a4, a5⟩ :=
          ih ((l + r) / 2) r (by omega) (by omega) (not_lt.mp hcv) h4
        exact ⟨le_trans (by omega) a1, a2, a3, a4, a5⟩
    · rw [if_neg hlr]
      refine ⟨le_refl _, ?_, le_refl _, h3, ?_⟩
      · show r = l + 1
        omega
      · show cv < vs.getD r 0
        exact h4

theorem bsearch_spec (vs : List ℚ) (cv : ℚ) (left right : ℕ) (h2 : left < right)
    (h3 : vs.getD left 0 ≤ cv) (h4 : cv < vs.getD right 0) :
    left ≤ (bsearch vs cv left right).1 ∧
    (bsearch vs cv left right).2 = (bsearch vs cv left right).1 + 1 ∧
    (bsearch vs cv left right).2 ≤ right ∧
    vs.getD (bsearch vs cv left right).1 0 ≤ cv ∧
    cv < vs.getD (bsearch vs cv left right).2 0 :=
  bsearchAux_spec vs cv (right - left) left right (le_refl _) h2 h3 h4

theorem clampPercent_mono {x y : ℚ} (h : x ≤ y) : clampPercent x ≤ clampPercent y := by
  unfold clampPercent
  split_ifs <;> linarith

theorem clampPercent_nonneg (x : ℚ) : 0 ≤ clampPercent x := by
  unfold clampPercent
  split_ifs <;> linarith

theorem clampPercent_le_100 (x : ℚ) : clampPercent x ≤ 100 := by
  unfold clampPercent
  split_ifs <;> linarith

theorem clampPercent_eq_self {x : ℚ} (h0 : 0 ≤ x) (h1 : x ≤ 100) : clampPercent x = x := by
  unfold clampPercent
  split_ifs <;> linarith

/-- The value the interior branch of `interpolate` computes on the bracket
`[l, l+1]`. -/
def interpBracket (vs ps : List ℚ) (c : ℚ) (l : ℕ) : ℚ :=
  if vs.getD (l + 1) 0 = vs.getD l 0 then ps.getD l 0
  else clampPercent (ps.getD l 0 +
    (ps.getD (l + 1) 0 - ps.getD l 0) * (c - vs.getD l 0) / (vs.getD (l + 1) 0 - vs.getD l 0))

/-- In the interior case (strictly between the first and last curve voltages),
`interpolate` evaluates the bracket found by the binary search, and that
bracket is adjacent, in range, and contains the cell voltage. -/
theorem interpolate_interior (vs ps : List ℚ) (cv : ℚ)
    (hlo : ¬ cv ≤ vs.getD 0 0) (hhi : ¬ vs.getD (vs.length - 1) 0 ≤ cv) :
    ∃ l : ℕ, l + 1 ≤ vs.length - 1 ∧
      vs.getD l 0 ≤ cv ∧ cv < vs.getD (l + 1) 0 ∧
      interpolate vs ps cv = interpBracket vs ps cv l := by
  have hn2 : 2 ≤ vs.length := by
    by_contra hc
    have he : vs.length - 1 = 0 := by omega
    rw [he] at hhi
    have hx1 := not_le.mp hlo
    have hx2 := not_le.mp hhi
    linarith
  obtain ⟨a1, a2, a3, a4, a5⟩ := bsearch_spec vs cv 0 (vs.length - 1)
    (by omega) (le_of_lt (not_le.mp hlo)) (not_le.mp hhi)
  refine ⟨(bsearch vs cv 0 (vs.length - 1)).1, by omega, a4, by rw [← a2]; exact a5, ?_⟩
  unfold interpolate interpBracket
  rw [if_neg hlo, if_neg hhi]
  dsimp only
  rw [a2]

/-- On a bracket with non-decreasing endpoints whose percents lie inside
[0,100], the interior value stays between the endpoint percents. -/
theorem interpBracket_bounds (vs ps : List ℚ) (c : ℚ) (l : ℕ)
    (hv : vs.getD l 0 ≤ vs.getD (l + 1) 0)
    (hp : ps.getD l 0 ≤ ps.getD (l + 1) 0)
    (hc1 : vs.getD l 0 ≤ c) (hc2 : c ≤ vs.getD (l + 1) 0)
    (hp1a : 0 ≤ ps.getD l 0) (hp1b : ps.getD l 0 ≤ 100)
    (hp2a : 0 ≤ ps.getD (l + 1) 0) (hp2b : ps.getD (l + 1) 0 ≤ 100) :
    ps.getD l 0 ≤ interpBracket vs ps c l ∧ interpBracket vs ps c l ≤ ps.getD (l + 1) 0 := by
  unfold interpBracket
  split_ifs with hdeg
  · exact ⟨le_refl _, hp⟩
  · have hvlt : vs.getD l 0 < vs.getD (l + 1) 0 := lt_of_le_of_ne hv (Ne.symm hdeg)
    have hq1 : 0 ≤ (ps.getD (l + 1) 0 - ps.getD l 0) * (c - vs.getD l 0) /
        (vs.getD (l + 1) 0 - vs.getD l 0) :=
      div_nonneg (mul_nonneg (by linarith) (by linarith)) (by linarith)
    have hq2 : (ps.getD (l + 1) 0 - ps.getD l 0) * (c - vs.getD l 0) /
        (vs.getD (l + 1) 0 - vs.getD l 0) ≤ ps.getD (l + 1) 0 - ps.getD l 0 := by
      rw [div_le_iff₀ (by linarith)]
      have := mul_le_mul_of_nonneg_left (show c - vs.getD l 0 ≤ vs.getD (l + 1) 0 - vs.getD l 0
        by linarith) (show (0:ℚ) ≤ ps.getD (l + 1) 0 - ps.getD l 0 by linarith)
      linarith
    constructor
    · calc ps.getD l 0 = clampPercent (ps.getD l 0) := (clampPercent_eq_self hp1a hp1b).symm
        _ ≤ _ := clampPercent_mono (by linarith)
    · calc clampPercent _ ≤ clampPercent (ps.getD (l + 1) 0) := clampPercent_mono (by linarith)
        _ = ps.getD (l + 1) 0 := clampPercent_eq_self hp2a hp2b

/-- On a fixed bracket with non-decreasing percents, the interior value is
monotone in the cell voltage. -/
theorem interpBracket_mono (vs ps : List ℚ) (c c' : ℚ) (l : ℕ)
    (hp : ps.getD l 0 ≤ ps.getD (l + 1) 0)
    (hv : vs.getD l 0 ≤ vs.getD (l + 1) 0)
    (hcc : c ≤ c') : interpBracket vs ps c l ≤ interpBracket vs ps c' l := by
  unfold interpBracket
  split_ifs with hdeg
  · exact le_refl _
  · have hvlt : vs.getD l 0 < vs.getD (l + 1) 0 := lt_of_le_of_ne hv (Ne.symm hdeg)
    apply clampPercent_mono
    have hnum := mul_le_mul_of_nonneg_left
      (show c - vs.getD l 0 ≤ c' - vs.getD l 0 by linarith)
      (show (0:ℚ) ≤ ps.getD (l + 1) 0 - ps.getD l 0 by linarith)
    have hdiv := (div_le_div_iff_of_pos_right
      (show (0:ℚ) < vs.getD (l + 1) 0 - vs.getD l 0 by linarith)).mpr hnum
    linarith

/-- With a valid monotone curve, `interpolate` is bounded below by the first
percent value. -/
theorem interpolate_ge_head (vs ps : List ℚ)
    (hlen : vs.length = ps.length) (hne : vs.length ≠ 0)
    (hvm : vs.Chain' (· ≤ ·)) (hpm : ps.Chain' (· ≤ ·))
    (hp0 : ∀ x ∈ ps, 0 ≤ x) (hp100 : ∀ x ∈ ps, x ≤ 100)
    (c : ℚ) : ps.getD 0 0 ≤ interpolate vs ps c := by
  by_cases h1 : c ≤ vs.getD 0 0
  · unfold interpolate
    rw [if_pos h1]
  · by_cases h2 : vs.getD (vs.length - 1) 0 ≤ c
    · unfold interpolate
      rw [if_neg h1, if_pos h2]
      exact getD_mono_of_chain hpm (Nat.zero_le _) (by omega)
    · obtain ⟨l, hl1, hl2, hl3, heq⟩ := interpolate_interior vs ps c h1 h2
      rw [heq]
      have hb := interpBracket_bounds vs ps c l
        (getD_mono_of_chain hvm (by omega) (by omega))
        (getD_mono_of_chain hpm (by omega) (by omega))
        hl2 (le_of_lt hl3)
        (hp0 _ (getD_mem_of_lt ps l (by omega)))
        (hp100 _ (getD_mem_of_lt ps l (by omega)))
        (hp0 _ (getD_mem_of_lt ps (l + 1) (by omega)))
        (hp100 _ (getD_mem_of_lt ps (l + 1) (by omega)))
      exact le_trans (getD_mono_of_chain hpm (Nat.zero_le _) (by omega)) hb.1

/-- With a valid monotone curve, `interpolate` is bounded above by the last
percent value. -/
theorem interpolate_le_getLast (vs ps : List ℚ)
    (hlen : vs.length = ps.length) (hne : vs.length ≠ 0)
    (hvm : vs.Chain' (· ≤ ·)) (hpm : ps.Chain' (· ≤ ·))
    (hp0 : ∀ x ∈ ps, 0 ≤ x) (hp100 : ∀ x ∈ ps, x ≤ 100)
    (c : ℚ) : interpolate vs ps c ≤ ps.getD (ps.length - 1) 0 := by
  by_cases h1 : c ≤ vs.getD 0 0
  · unfold interpolate
    rw [if_pos h1]
    exact getD_mono_of_chain hpm (Nat.zero_le _) (by omega)
  · by_cases h2 : vs.getD (vs.length - 1) 0 ≤ c
    · unfold interpolate
      rw [if_neg h1, if_pos h2]
    · obtain ⟨l, hl1, hl2, hl3, heq⟩ := interpolate_interior vs ps c h1 h2
      rw [heq]
      have hb := interpBracket_bounds vs ps c l
        (getD_mono_of_chain hvm (by omega) (by omega))
        (getD_mono_of_chain hpm (by omega) (by omega))
        hl2 (le_of_lt hl3)
        (hp0 _ (getD_mem_of_lt ps l (by omega)))
        (hp100 _ (getD_mem_of_lt ps l (by omega)))
        (hp0 _ (getD_mem_of_lt ps (l + 1) (by omega)))
        (hp100 _ (getD_mem_of_lt ps (l + 1) (by omega)))
      exact le_trans hb.2 (getD_mono_of_chain hpm (by omega) (by omega))

/-- Core monotonicity: with a valid monotone curve whose percents lie in
[0,100], `interpolate` is monotone in the cell voltage. -/
theorem interpolate_mono (vs ps : List ℚ)
    (hlen : vs.length = ps.length) (hne : vs.length ≠ 0)
    (hvm : vs.Chain' (· ≤ ·)) (hpm : ps.Chain' (· ≤ ·))
    (hp0 : ∀ x ∈ ps, 0 ≤ x) (hp100 : ∀ x ∈ ps, x ≤ 100)
    {cu cv : ℚ} (h : cu ≤ cv) : interpolate vs ps cu ≤ interpolate vs ps cv := by
  by_cases hu1 : cu ≤ vs.getD 0 0
  · have eu : interpolate vs ps cu = ps.getD 0 0 := by
      unfold interpolate
      rw [if_pos hu1]
    rw [eu]
    exact interpolate_ge_head vs ps hlen hne hvm hpm hp0 hp100 cv
  · by_cases hv2 : vs.getD (vs.length - 1) 0 ≤ cv
    · have ev : interpolate vs ps cv = ps.getD (ps.length - 1) 0 := by
        unfold interpolate
        rw [if_neg (fun hc => hu1 (le_trans h hc)), if_pos hv2]
      rw [ev]
      exact interpolate_le_getLast vs ps hlen hne hvm hpm hp0 hp100 cu
    · have hu2 : ¬ vs.getD (vs.length - 1) 0 ≤ cu := fun hc => hv2 (le_trans hc h)
      have hv1 : ¬ cv ≤ vs.getD 0 0 := fun hc => hu1 (le_trans h hc)
      obtain ⟨lu, hu3, hu4, hu5, equ⟩ := interpolate_interior vs ps cu hu1 hu2
      obtain ⟨lv, hv3, hv4, hv5, eqv⟩ := interpolate_interior vs ps cv hv1 hv2
      rw [equ, eqv]
      rcases Nat.lt_trichotomy lu lv with hlt | hequ | hgt
      · have hbu := interpBracket_bounds vs ps cu lu
          (getD_mono_of_chain hvm (by omega) (by omega))
          (getD_mono_of_chain hpm (by omega) (by omega))
          hu4 (le_of_lt hu5)
          (hp0 _ (getD_mem_of_lt ps lu (by omega)))
          (hp100 _ (getD_mem_of_lt ps lu (by omega)))
          (hp0 _ (getD_mem_of_lt ps (lu + 1) (by omega)))
          (hp100 _ (getD_mem_of_lt ps (lu + 1) (by omega)))
        have hbv := interpBracket_bounds vs ps cv lv
          (getD_mono_of_chain hvm (by omega) (by omega))
          (getD_mono_of_chain hpm (by omega) (by omega))
          hv4 (le_of_lt hv5)
          (hp0 _ (getD_mem_of_lt ps lv (by omega)))
          (hp100 _ (getD_mem_of_lt ps lv (by omega)))
          (hp0 _ (getD_mem_of_lt ps (lv + 1) (by omega)))
          (hp100 _ (getD_mem_of_lt ps (lv + 1) (by omega)))
        have hmid : ps.getD (lu + 1) 0 ≤ ps.getD lv 0 :=
          getD_mono_of_chain hpm (by omega) (by omega)
        linarith [hbu.2, hbv.1]
      · rw [hequ]
        exact interpBracket_mono vs ps cu cv lv
          (getD_mono_of_chain hpm (by omega) (by omega))
          (getD_mono_of_chain hvm (by omega) (by omega)) h
      · exfalso
        have hvv : vs.getD (lv + 1) 0 ≤ vs.getD lu 0 :=
          getD_mono_of_chain hvm (by omega) (by omega)
        linarith [hu4, hv5]

/-- When the cell count is positive and the curve arrays are well-formed,
`VoltageToPercent` succeeds with the interpolated per-cell value. -/
theorem voltageToPercent_ok_eq (t : BatteryType) (n : ℤ) (hn : 0 < n)
    (hlen : t.voltages.length = t.percent.length) (hne : t.voltages.length ≠ 0)
    (voltage : ℚ) :
    BatteryPack.VoltageToPercent ⟨some t, n⟩ voltage =
      .ok (interpolate t.voltages t.percent (voltage / (n : ℚ))) := by
  unfold BatteryPack.VoltageToPercent
  dsimp only
  rw [if_neg (by omega), if_neg (by omega)]

/-- Monotonicity of `VoltageToPercent` for any profile whose curve satisfies
the documented invariant with percent values inside [0,100]. -/
theorem voltageToPercent_mono_of_curve (t : BatteryType)
    (hlen : t.voltages.length = t.percent.length) (hne : t.voltages.length ≠ 0)
    (hvm : t.voltages.Chain' (· ≤ ·)) (hpm : t.percent.Chain' (· ≤ ·))
    (hp0 : ∀ x ∈ t.percent, 0 ≤ x) (hp100 : ∀ x ∈ t.percent, x ≤ 100)
    (n : ℤ) (hn : 0 < n) (u v : ℚ) (huv : u ≤ v) (pu pv : ℚ)
    (hu : BatteryPack.VoltageToPercent ⟨some t, n⟩ u = .ok pu)
    (hv : BatteryPack.VoltageToPercent ⟨some t, n⟩ v = .ok pv) : pu ≤ pv := by
  rw [voltageToPercent_ok_eq t n hn hlen hne u] at hu
  rw [voltageToPercent_ok_eq t n hn hlen hne v] at hv
  injection hu with hu
  injection hv with hv
  subst hu
  subst hv
  exact interpolate_mono _ _ hlen hne hvm hpm hp0 hp100
    ((div_le_div_iff_of_pos_right (by exact_mod_cast hn)).mpr huv)

/-- C1: for every battery pack built from a registered chemistry profile and a
fixed positive cell count, `VoltageToPercent` is monotonically non-decreasing
in the voltage: whenever both calls succeed on voltages `u ≤ v`, the returned
percentage for `u` is at most the one for `v`. -/
theorem voltageToPercent_mono_of_registered (name : String) (t : BatteryType)
    (hreg : ChemistryProfiles name = some t) (n : ℤ) (hn : 0 < n)
    (u v : ℚ) (huv : u ≤ v) (pu pv : ℚ)
    (hu : BatteryPack.VoltageToPercent ⟨some t, n⟩ u = .ok pu)
    (hv : BatteryPack.VoltageToPercent ⟨some t, n⟩ v = .ok pv) : pu ≤ pv := by
  unfold ChemistryProfiles at hreg
  split_ifs at hreg <;>
    first
    | exact Option.noConfusion hreg
    | (injection hreg with hprof
       subst hprof
       exact voltageToPercent_mono_of_curve _ (by decide) (by decide)
         (by norm_num [LiFePO4Chemistry, LiIonChemistry, LeadAcidChemistry, LiPoChemistry,
           List.chain'_cons])
         (by norm_num [LiFePO4Chemistry, LiIonChemistry, LeadAcidChemistry, LiPoChemistry,
           List.chain'_cons])
         (by decide) (by decide) n hn u v huv pu pv hu hv)

theorem voltageToPercent_at_scaled_min (t : BatteryType) (n : ℤ) (hn : 0 < n)
    (hlen : t.voltages.length = t.percent.length) (hne : t.voltages.length ≠ 0)
    (hmin : t.minVoltage ≤ t.voltages.getD 0 0) :
    BatteryPack.VoltageToPercent ⟨some t, n⟩ (t.minVoltage * n) =
      .ok (t.percent.getD 0 0) := by
  rw [voltageToPercent_ok_eq t n hn hlen hne]
  have hn' : (n : ℚ) ≠ 0 := by
    exact_mod_cast hn.ne'
  rw [mul_div_cancel_right₀ t.minVoltage hn']
  unfold interpolate
  rw [if_pos hmin]

theorem voltageToPercent_at_scaled_max (t : BatteryType) (n : ℤ) (hn : 0 < n)
    (hlen : t.voltages.length = t.percent.length) (hne : t.voltages.length ≠ 0)
    (hgt : t.voltages.getD 0 0 < t.maxVoltage)
    (hmax : t.voltages.getD (t.voltages.length - 1) 0 ≤ t.maxVoltage) :
    BatteryPack.VoltageToPercent ⟨some t, n⟩ (t.maxVoltage * n) =
      .ok (t.percent.getD (t.percent.length - 1) 0) := by
  rw [voltageToPercent_ok_eq t n hn hlen hne]
  have hn' : (n : ℚ) ≠ 0 := by
    exact_mod_cast hn.ne'
  rw [mul_div_cancel_right₀ t.maxVoltage hn']
  unfold interpolate
  rw [if_neg (not_le.mpr hgt), if_pos hmax]

/-- C2: for every registered chemistry profile and every cell count in [1,24],
`VoltageToPercent` at the pack's scaled minimum voltage returns exactly 0 and
at the pack's scaled maximum voltage returns exactly 100. -/
theorem voltageToPercent_at_scaled_extremes (name : String) (t : BatteryType)
    (hreg : ChemistryProfiles name = some t) (n : ℤ) (h1 : 1 ≤ n) (h24 : n ≤ 24) :
    BatteryPack.VoltageToPercent ⟨some t, n⟩ (t.minVoltage * n) = .ok 0 ∧
    BatteryPack.VoltageToPercent ⟨some t, n⟩ (t.maxVoltage * n) = .ok 100 := by
  unfold ChemistryProfiles at hreg
  split_ifs at hreg <;>
    first
    | exact Option.noConfusion hreg
    | (injection hreg with hprof
       subst hprof
       constructor
       · rw [voltageToPercent_at_scaled_min _ n (by omega) (by decide) (by decide) (by decide)]
         decide
       · rw [voltageToPercent_at_scaled_max _ n (by omega) (by decide) (by decide) (by decide)
           (by decide)]
         decide)

/-- Witness for C2 at a 4-cell LiFePO4 pack. -/
theorem voltageToPercent_at_scaled_extremes_witness :
    BatteryPack.VoltageToPercent ⟨some LiFePO4Chemistry, 4⟩ (LiFePO4Chemistry.minVoltage * 4) =
      .ok 0 ∧
    BatteryPack.VoltageToPercent ⟨some LiFePO4Chemistry, 4⟩ (LiFePO4Chemistry.maxVoltage * 4) =
      .ok 100 :=
  voltageToPercent_at_scaled_extremes "lifepo4" LiFePO4Chemistry (by decide) 4
    (by decide) (by decide)

/-- C3 counterexample: the built-in LiFePO4 profile's voltage sequence is not
strictly ascending — the voltage 3.25 occupies two adjacent positions. -/
theorem lifepo4_voltages_not_strictly_ascending :
    ¬ LiFePO4Chemistry.voltages.Chain' (· < ·) := by
  norm_num [LiFePO4Chemistry, List.chain'_cons]

/-- C3 amended: every registered profile has a non-empty curve with equal-length
sequences whose percents are strictly ascending; the voltages are only weakly
ascending in general — they are strictly ascending for li-ion, lead-acid and
lipo, while the built-in LiFePO4 profile repeats the voltage 3.25. -/
theorem builtin_profiles_curve_invariant (name : String) (t : BatteryType)
    (hreg : ChemistryProfiles name = some t) :
    t.voltages ≠ [] ∧ t.voltages.length = t.percent.length ∧
    t.percent.Chain' (· < ·) ∧ t.voltages.Chain' (· ≤ ·) ∧
    (t.chemistry ≠ "lifepo4" → t.voltages.Chain' (· < ·)) := by
  unfold ChemistryProfiles at hreg
  split_ifs at hreg <;>
    first
    | exact Option.noConfusion hreg
    | (injection hreg with hprof
       subst hprof
       refine ⟨by decide, by decide, ?_, ?_, ?_⟩ <;>
         norm_num [LiFePO4Chemistry, LiIonChemistry, LeadAcidChemistry, LiPoChemistry,
           List.chain'_cons])

/-- Witness for C3 (amended) at the li-ion profile. -/
theorem builtin_profiles_curve_invariant_witness :
    LiIonChemistry.voltages ≠ [] ∧
    LiIonChemistry.voltages.length = LiIonChemistry.percent.length ∧
    LiIonChemistry.percent.Chain' (· < ·) ∧ LiIonChemistry.voltages.Chain' (· ≤ ·) ∧
    (LiIonChemistry.chemistry ≠ "lifepo4" → LiIonChemistry.voltages.Chain' (· < ·)) :=
  builtin_profiles_curve_invariant "li-ion" LiIonChemistry (by decide)

/-- Whenever the curve arrays are non-empty with equal lengths and every
percent entry lies in [0,100], `interpolate` stays in [0,100]. -/
theorem interpolate_range (vs ps : List ℚ) (hlen : vs.length = ps.length)
    (hne : vs.length ≠ 0) (hb : ∀ x ∈ ps, 0 ≤ x ∧ x ≤ 100) (c : ℚ) :
    0 ≤ interpolate vs ps c ∧ interpolate vs ps c ≤ 100 := by
  by_cases h1 : c ≤ vs.getD 0 0
  · unfold interpolate
    rw [if_pos h1]
    exact hb _ (getD_mem_of_lt ps 0 (by omega))
  · by_cases h2 : vs.getD (vs.length - 1) 0 ≤ c
    · unfold interpolate
      rw [if_neg h1, if_pos h2]
      exact hb _ (getD_mem_of_lt ps (ps.length - 1) (by omega))
    · obtain ⟨l, hl1, _, _, heq⟩ := interpolate_interior vs ps c h1 h2
      rw [heq]
      unfold interpBracket
      split_ifs
      · exact hb _ (getD_mem_of_lt ps l (by omega))
      · exact ⟨clampPercent_nonneg _, clampPercent_le_100 _⟩

/-- C4 counterexample: a pack whose (custom) curve has a percent entry outside
[0,100] yields a successful result outside [0,100] — the boundary branches of
`VoltageToPercent` return curve percents unclamped. -/
theorem voltageToPercent_range_counterexample :
    BatteryPack.VoltageToPercent ⟨some ⟨"custom", 0, 1, [1], [200]⟩, 1⟩ 0 = .ok 200 ∧
    ¬ ((200 : ℚ) ≤ 100) := by
  constructor
  · decide
  · norm_num

/-- C4 amended: `VoltageToPercent` fails exactly when the pack's type is nil,
its cell count is non-positive, or the profile's curve arrays are empty or of
mismatched lengths; and in every non-error case whose profile percents all lie
in [0,100], the returned percentage lies in [0,100]. -/
theorem voltageToPercent_error_iff_and_range (bp : BatteryPack) (voltage : ℚ) :
    ((∃ e, BatteryPack.VoltageToPercent bp voltage = .error e) ↔
      (bp.type = none ∨ bp.cellCount ≤ 0 ∨
        ∃ t, bp.type = some t ∧
          (t.voltages.length ≠ t.percent.length ∨ t.voltages.length = 0))) ∧
    (∀ t p, bp.type = some t → (∀ x ∈ t.percent, 0 ≤ x ∧ x ≤ 100) →
      BatteryPack.VoltageToPercent bp voltage = .ok p → 0 ≤ p ∧ p ≤ 100) := by
  obtain ⟨ty, n⟩ := bp
  cases ty with
  | none =>
    constructor
    · exact ⟨fun _ => Or.inl rfl, fun _ => ⟨_, rfl⟩⟩
    · intro t p h
      exact Option.noConfusion h
  | some t =>
    by_cases hn : n ≤ 0
    · have he : BatteryPack.VoltageToPercent ⟨some t, n⟩ voltage =
          .error ("invalid cell count: " ++ toString n) := by
        unfold BatteryPack.VoltageToPercent
        dsimp only
        rw [if_pos hn]
      constructor
      · exact ⟨fun _ => Or.inr (Or.inl hn), fun _ => ⟨_, he⟩⟩
      · intro t' p _ _ hok
        rw [he] at hok
        exact Except.noConfusion hok
    · by_cases hcur : t.voltages.length ≠ t.percent.length ∨ t.voltages.length = 0
      · have he : BatteryPack.VoltageToPercent ⟨some t, n⟩ voltage =
            .error ("invalid voltage/percent curves for " ++ t.chemistry) := by
          unfold BatteryPack.VoltageToPercent
          dsimp only
          rw [if_neg hn, if_pos hcur]
        constructor
        · exact ⟨fun _ => Or.inr (Or.inr ⟨t, rfl, hcur⟩), fun _ => ⟨_, he⟩⟩
        · intro t' p _ _ hok
          rw [he] at hok
          exact Except.noConfusion hok
      · have hlen : t.voltages.length = t.percent.length := by
          by_contra hc
          exact hcur (Or.inl hc)
        have hne : t.voltages.length ≠ 0 := by
          by_contra hc
          exact hcur (Or.inr hc)
        have hok : BatteryPack.VoltageToPercent ⟨some t, n⟩ voltage =
            .ok (interpolate t.voltages t.percent (voltage / (n : ℚ))) :=
          voltageToPercent_ok_eq t n (by omega) hlen hne voltage
        constructor
        · constructor
          · rintro ⟨e, he⟩
            rw [hok] at he
            exact Except.noConfusion he
          · rintro (h | h | ⟨t', ht', hc'⟩)
            · exact Option.noConfusion h
            · exact absurd h hn
            · injection ht' with ht'
              subst ht'
              exact absurd hc' (by omega)
        · intro t' p ht' hb hokp
          injection ht' with ht'
          subst ht'
          rw [hok] at hokp
          injection hokp with hokp
          subst hokp
          exact interpolate_range _ _ hlen hne hb _

/-- Witness for C4 (amended) at a 4-cell LiFePO4 pack at 13V. -/
theorem voltageToPercent_error_iff_and_range_witness :
    (0 : ℚ) ≤ 50 ∧ (50 : ℚ) ≤ 100 :=
  (voltageToPercent_error_iff_and_range ⟨some LiFePO4Chemistry, 4⟩ 13).2
    LiFePO4Chemistry 50 rfl (by decide) (by decide)

/-- The clamp of the cell-count detector (battery.go):
`if est < 1 { 1 } else if est > 24 { 24 } else est`. -/
def clampCellCount (k : ℤ) : ℤ :=
  if k < 1 then 1 else if k > 24 then 24 else k

theorem detectCellCount_eq (t : BatteryType) (c : ℤ) (voltage : ℚ) :
    BatteryPack.DetectCellCount ⟨some t, c⟩ voltage =
      clampCellCount (truncInt (voltage / ((t.minVoltage + t.maxVoltage) / 2) + 0.5)) := rfl

theorem clampCellCount_mem (k : ℤ) : 1 ≤ clampCellCount k ∧ clampCellCount k ≤ 24 := by
  unfold clampCellCount
  split_ifs <;> omega

/-- After clamping into [1,24], truncation toward zero (Go `int(x)`) and the
spec's half-up `floor` agree: they differ only on negative arguments, where
both clamp up to 1. -/
theorem clampCellCount_truncInt_eq_floor (q : ℚ) :
    clampCellCount (truncInt q) = clampCellCount ⌊q⌋ := by
  unfold truncInt
  by_cases hq : q < 0
  · rw [if_pos hq]
    have h1 : ⌈q⌉ ≤ 0 := by
      rw [Int.ceil_le]
      exact_mod_cast hq.le
    have h2 : ⌊q⌋ ≤ 0 := le_trans (Int.floor_le_ceil q) h1
    unfold clampCellCount
    rw [if_pos (by omega), if_pos (by omega)]
  · rw [if_neg hq]

theorem truncInt_nonpos {x : ℚ} (h : x ≤ 0.5) : truncInt x ≤ 0 := by
  unfold truncInt
  split_ifs with hx
  · rw [Int.ceil_le]
    exact_mod_cast hx.le
  · have h1 : ⌊x⌋ < 1 := by
      rw [Int.floor_lt]
      push_cast
      linarith
    omega

theorem registered_nominal_pos (name : String) (t : BatteryType)
    (hreg : ChemistryProfiles name = some t) : 0 < (t.minVoltage + t.maxVoltage) / 2 := by
  unfold ChemistryProfiles at hreg
  split_ifs at hreg <;>
    first
    | exact Option.noConfusion hreg
    | (injection hreg with hprof
       subst hprof
       norm_num [LiFePO4Chemistry, LiIonChemistry, LeadAcidChemistry, LiPoChemistry])

/-- C5: `Battery.DetectCellCount` returns the sentinel 0 exactly for an
unregistered chemistry; for a registered chemistry the result is always in
[1,24] and equals the spec's half-up rounding `floor(voltage/nominal + 0.5)`
clamped into [1,24], and every non-positive voltage yields the clamped
positive estimate 1. -/
theorem detectCellCount_spec (b : Battery) (chemistry : String) (voltage : ℚ) :
    (b.DetectCellCount chemistry voltage = 0 ↔ ChemistryProfiles chemistry = none) ∧
    (∀ t, ChemistryProfiles chemistry = some t →
      (1 ≤ b.DetectCellCount chemistry voltage ∧ b.DetectCellCount chemistry voltage ≤ 24) ∧
      b.DetectCellCount chemistry voltage =
        clampCellCount ⌊voltage / ((t.minVoltage + t.maxVoltage) / 2) + 0.5⌋ ∧
      (voltage ≤ 0 → b.DetectCellCount chemistry voltage = 1)) := by
  cases hreg : ChemistryProfiles chemistry with
  | none =>
    constructor
    · constructor
      · intro _
        rfl
      · intro _
        simp only [Battery.DetectCellCount, hreg]
    · intro t ht
      exact Option.noConfusion ht
  | some t =>
    have hcode : b.DetectCellCount chemistry voltage =
        clampCellCount (truncInt (voltage / ((t.minVoltage + t.maxVoltage) / 2) + 0.5)) := by
      simp only [Battery.DetectCellCount, hreg]
      exact detectCellCount_eq t 0 voltage
    have hmem := clampCellCount_mem (truncInt (voltage / ((t.minVoltage + t.maxVoltage) / 2) + 0.5))
    constructor
    · constructor
      · intro h0
        exact absurd h0 (by rw [hcode]; omega)
      · intro hc
        exact Option.noConfusion hc
    · intro t' ht'
      injection ht' with ht'
      subst ht'
      have hnom := registered_nominal_pos chemistry t hreg
      refine ⟨by rw [hcode]; exact hmem, by rw [hcode]; exact clampCellCount_truncInt_eq_floor _, ?_⟩
      intro hv
      rw [hcode]
      have hdiv : voltage / ((t.minVoltage + t.maxVoltage) / 2) ≤ 0 :=
        div_nonpos_of_nonpos_of_nonneg hv hnom.le
      have htr : truncInt (voltage / ((t.minVoltage + t.maxVoltage) / 2) + 0.5) ≤ 0 :=
        truncInt_nonpos (by linarith)
      unfold clampCellCount
      rw [if_pos (by omega)]

/-- Witness for C5 at the lifepo4 chemistry and 13V. -/
theorem detectCellCount_spec_witness :
    (1 ≤ DefaultBattery.DetectCellCount "lifepo4" 13 ∧
      DefaultBattery.DetectCellCount "lifepo4" 13 ≤ 24) ∧
    DefaultBattery.DetectCellCount "lifepo4" 13 =
      clampCellCount ⌊(13 : ℚ) /
        ((LiFePO4Chemistry.minVoltage + LiFePO4Chemistry.maxVoltage) / 2) + 0.5⌋ ∧
    ((13 : ℚ) ≤ 0 → DefaultBattery.DetectCellCount "lifepo4" 13 = 1) :=
  (detectCellCount_spec DefaultBattery "lifepo4" 13).2 LiFePO4Chemistry (by decide)

/-- C6: for every registered chemistry and every cell count n in [1,24],
detecting the cell count at n times the chemistry's nominal (midpoint) per-cell
voltage recovers exactly n. -/
theorem detectCellCount_roundtrip (b : Battery) (name : String) (t : BatteryType)
    (hreg : ChemistryProfiles name = some t) (n : ℤ) (h1 : 1 ≤ n) (h24 : n ≤ 24) :
    b.DetectCellCount name ((n : ℚ) * ((t.minVoltage + t.maxVoltage) / 2)) = n := by
  have hnom := registered_nominal_pos name t hreg
  simp only [Battery.DetectCellCount, hreg]
  rw [detectCellCount_eq t 0]
  rw [mul_div_cancel_right₀ _ hnom.ne']
  have hn' : (1 : ℚ) ≤ (n : ℚ) := by exact_mod_cast h1
  have harg : truncInt ((n : ℚ) + 0.5) = n := by
    unfold truncInt
    rw [if_neg (by linarith)]
    refine Int.floor_eq_iff.mpr ⟨by linarith, by linarith⟩
  rw [harg]
  unfold clampCellCount
  rw [if_neg (by omega), if_neg (by omega)]

/-- Witness for C6 at the lifepo4 chemistry with 4 cells. -/
theorem detectCellCount_roundtrip_witness :
    DefaultBattery.DetectCellCount "lifepo4"
      ((4 : ℚ) * ((LiFePO4Chemistry.minVoltage + LiFePO4Chemistry.maxVoltage) / 2)) = 4 :=
  detectCellCount_roundtrip DefaultBattery "lifepo4" LiFePO4Chemistry (by decide) 4
    (by decide) (by decide)

/-- C7 counterexample: with an empty chemistry string, `GetBatteryPack` fails
with an error instead of auto-detecting — here at 3.86V, a voltage the
stand-alone auto-detector resolves to a 1-cell Li-Ion pack. -/
theorem getBatteryPack_empty_chemistry_counterexample :
    DefaultBattery.chemistry = "" ∧
    DefaultBattery.GetBatteryPack 3.86 = .error "no battery chemistry specified" := by
  constructor
  · rfl
  · decide

/-- C7 amended: for every configuration whose chemistry string is empty,
`GetBatteryPack` does not auto-detect: it returns the error "no battery
chemistry specified" at every voltage; detection from a bare voltage is only
offered by the separate `AutoDetectBatteryPack` entry point. -/
theorem getBatteryPack_empty_chemistry_errors (b : Battery) (voltage : ℚ)
    (h : b.chemistry = "") :
    b.GetBatteryPack voltage = .error "no battery chemistry specified" := by
  unfold Battery.GetBatteryPack
  rw [if_pos h]

/-- Witness for C7 (amended) at the default configuration and 12V. -/
theorem getBatteryPack_empty_chemistry_errors_witness :
    DefaultBattery.GetBatteryPack 12 = .error "no battery chemistry specified" :=
  getBatteryPack_empty_chemistry_errors DefaultBattery 12 rfl

/-- A predicate's first `true` index determines the result of `List.find?`. -/
theorem find?_eq_of_first {α : Type} (l : List α) (p : α → Bool) (d : α) :
    ∀ i : ℕ, i < l.length → p (l.getD i d) = true →
      (∀ j, j < i → p (l.getD j d) = false) → l.find? p = some (l.getD i d) := by
  induction l with
  | nil =>
    intro i hi
    simp at hi
  | cons a l ih =>
    intro i hi hp hprev
    cases i with
    | zero => exact List.find?_cons_of_pos _ hp
    | succ i =>
      have ha : p a = false := hprev 0 (by omega)
      rw [List.find?_cons_of_neg _ (by simp [ha])]
      exact ih i (by simpa using hi) hp (fun j hj => hprev (j + 1) (by omega))

/-- C8: for a positive voltage, the auto-detector returns the pack of the
first priority-table entry whose scaled voltage window contains the voltage;
in particular 3.86V resolves to a 1-cell Li-Ion pack, not a 2-cell lead-acid
pack. -/
theorem autoDetectBatteryPack_first_match :
    (∀ (voltage : ℚ) (i : ℕ), 0 < voltage → i < autoDetectTable.length →
      entryMatches voltage (autoDetectTable.getD i ("", 0)) = true →
      (∀ j, j < i → entryMatches voltage (autoDetectTable.getD j ("", 0)) = false) →
      AutoDetectBatteryPack voltage =
        .ok ⟨ChemistryProfiles (autoDetectTable.getD i ("", 0)).1,
             (autoDetectTable.getD i ("", 0)).2⟩) ∧
    AutoDetectBatteryPack 3.86 = .ok ⟨some LiIonChemistry, 1⟩ := by
  constructor
  · intro voltage i hv hi hp hprev
    unfold AutoDetectBatteryPack
    rw [if_neg (not_le.mpr hv)]
    rw [find?_eq_of_first autoDetectTable (entryMatches voltage) ("", 0) i hi hp hprev]
  · decide

/-- Witness for C8 at 2.1V, matching the table's first entry (1-cell
lead-acid). -/
theorem autoDetectBatteryPack_first_match_witness :
    AutoDetectBatteryPack 2.1 =
      .ok ⟨ChemistryProfiles (autoDetectTable.getD 0 ("", 0)).1,
           (autoDetectTable.getD 0 ("", 0)).2⟩ :=
  autoDetectBatteryPack_first_match.1 2.1 0 (by norm_num) (by decide) (by decide)
    (fun j hj => absurd hj (by omega))

/-- C9: `SetManualConfiguration` is not atomic on error: called with a
registered chemistry and a cell count above 24 it reports an error, yet the
chemistry field has already been updated, while the manual cell count and the
manually-configured flag keep their prior values. -/
theorem setManualConfiguration_not_atomic (b : Battery) (chemistry : String)
    (t : BatteryType) (hreg : ChemistryProfiles chemistry = some t)
    (cellCount : ℤ) (hcc : 24 < cellCount) :
    (b.SetManualConfiguration chemistry cellCount).2 =
      some ("cell count must be between 1 and 24, got " ++ toString cellCount) ∧
    (b.SetManualConfiguration chemistry cellCount).1.chemistry = chemistry ∧
    (b.SetManualConfiguration chemistry cellCount).1.manualCellCount = b.manualCellCount ∧
    (b.SetManualConfiguration chemistry cellCount).1.manuallyConfigured =
      b.manuallyConfigured := by
  have hch : chemistry ≠ "" := by
    intro he
    rw [he] at hreg
    have h0 : ChemistryProfiles "" = none := by decide
    rw [h0] at hreg
    exact Option.noConfusion hreg
  unfold Battery.SetManualConfiguration
  rw [if_neg (by simp [hreg])]
  dsimp only
  rw [if_pos ⟨by omega, Or.inr (by omega)⟩, if_pos hch]
  exact ⟨rfl, rfl, rfl, rfl⟩

/-- Witness for C9: the default configuration with lipo chemistry and 25
cells. -/
theorem setManualConfiguration_not_atomic_witness :
    (DefaultBattery.SetManualConfiguration "lipo" 25).2 =
      some ("cell count must be between 1 and 24, got " ++ toString (25 : ℤ)) ∧
    (DefaultBattery.SetManualConfiguration "lipo" 25).1.chemistry = "lipo" ∧
    (DefaultBattery.SetManualConfiguration "lipo" 25).1.manualCellCount =
      DefaultBattery.manualCellCount ∧
    (DefaultBattery.SetManualConfiguration "lipo" 25).1.manuallyConfigured =
      DefaultBattery.manuallyConfigured :=
  setManualConfiguration_not_atomic DefaultBattery "lipo" LiPoChemistry (by decide) 25
    (by decide)

/-- C10: with a registered chemistry, a non-positive manual cell count and a
non-positive voltage, `GetBatteryPack` succeeds but the returned pack's cell
count is 0 — outside the documented [1,24] pack invariant — so a subsequent
`VoltageToPercent` on that pack fails with the invalid-cell-count error. -/
theorem getBatteryPack_zero_cells_then_invalid (b : Battery) (t : BatteryType)
    (hreg : ChemistryProfiles b.chemistry = some t)
    (hm : b.manualCellCount ≤ 0) (voltage : ℚ) (hv : voltage ≤ 0) :
    b.GetBatteryPack voltage = .ok ⟨some t, 0⟩ ∧
    ∀ w : ℚ, BatteryPack.VoltageToPercent ⟨some t, 0⟩ w =
      .error ("invalid cell count: " ++ toString (0 : ℤ)) := by
  have hch : b.chemistry ≠ "" := by
    intro he
    rw [he] at hreg
    have h0 : ChemistryProfiles "" = none := by decide
    rw [h0] at hreg
    exact Option.noConfusion hreg
  constructor
  · unfold Battery.GetBatteryPack
    rw [if_neg hch, hreg]
    dsimp only
    rw [if_neg (by omega), if_neg (not_lt.mpr hv)]
  · intro w
    unfold BatteryPack.VoltageToPercent
    dsimp only
    rw [if_pos (by omega)]

/-- Witness for C10: li-ion chemistry, manual cell count 0, voltage 0, then a
conversion attempt at 12V. -/
theorem getBatteryPack_zero_cells_then_invalid_witness :
    ({ DefaultBattery with chemistry := "li-ion" } : Battery).GetBatteryPack 0 =
      .ok ⟨some LiIonChemistry, 0⟩ ∧
    BatteryPack.VoltageToPercent ⟨some LiIonChemistry, 0⟩ 12 =
      .error ("invalid cell count: " ++ toString (0 : ℤ)) :=
  ⟨(getBatteryPack_zero_cells_then_invalid { DefaultBattery with chemistry := "li-ion" }
      LiIonChemistry (by decide) (by decide) 0 (by decide)).1,
   (getBatteryPack_zero_cells_then_invalid { DefaultBattery with chemistry := "li-ion" }
      LiIonChemistry (by decide) (by decide) 0 (by decide)).2 12⟩

/-- Witness for C1 at a 4-cell LiFePO4 pack and voltages 9V ≤ 15V. -/
theorem voltageToPercent_mono_of_registered_witness :
    BatteryPack.VoltageToPercent ⟨some LiFePO4Chemistry, 4⟩ 9 = .ok 0 ∧
    BatteryPack.VoltageToPercent ⟨some LiFePO4Chemistry, 4⟩ 15 = .ok 100 ∧
    (0 : ℚ) ≤ 100 :=
  ⟨by decide, by decide,
    voltageToPercent_mono_of_registered "lifepo4" LiFePO4Chemistry (by decide) 4 (by decide)
      9 15 (by decide) 0 100 (by decide) (by decide)⟩
